import Mathlib

/-!
Shallow embedding of the `slog` logging package (repository `fcavani/slog`).

The embedding follows `src/slog.go` (the current revision, whose line numbers
the claims cite), `src/tags.go`, `src/json.go` and the unnamed source parts.
Go machine integers that matter here (`Level = uint8`) are modelled as `Nat`;
the `default: panic(...)` branches of `Level.Byte` / `Level.String` are
modelled by returning `none`.  Strings are modelled as `String` or as
`List Char` (Go byte slices of ASCII text).  Mutable Go pointers (`*Log`,
`*tags`, `*Slog`) are modelled by an explicit heap: each heap is a total
function from reference numbers to values together with a next-free counter,
and every Go assignment through a pointer becomes a functional update.
-/

namespace SlogModel

/-! ## Severity levels (`src/slog.go` lines 43-151)

`Level` is `uint8` in Go; the seven declared constants are `iota + 1`. -/

abbrev Level := Nat

def ProtoPrio : Level := 1
def DebugPrio : Level := 2
def InfoPrio : Level := 3
def ErrorPrio : Level := 4
def FatalPrio : Level := 5
def PanicPrio : Level := 6
def NoPrio : Level := 7

/-- `Level.Byte` (`src/slog.go` 66-85).  The Go `default:` branch executes
`panic("this isn't a priority")`; that branch is modelled by `none`. -/
def Level.Byte : Level → Option (List Char)
  | 1 => some "protocol".data
  | 2 => some "debug".data
  | 3 => some "info".data
  | 4 => some "error".data
  | 5 => some "fatal".data
  | 6 => some "panic".data
  | 7 => some "no priority".data
  | _ => none

/-- `Level.String` (`src/slog.go` 88-107); the `default:` panic branch is
modelled by `none`. -/
def Level.String : Level → Option String
  | 1 => some "protocol"
  | 2 => some "debug"
  | 3 => some "info"
  | 4 => some "error"
  | 5 => some "fatal"
  | 6 => some "panic"
  | 7 => some "no priority"
  | _ => none

/-- `ParseLevel` (`src/slog.go` 132-151).  The second component models the
returned `error`: `none` for success, `some msg` for `e.New("invalid
priority")`. -/
def ParseLevel (level : String) : Level × Option String :=
  if level = "protocol" ∨ level = "proto" then (ProtoPrio, none)
  else if level = "debug" then (DebugPrio, none)
  else if level = "info" then (InfoPrio, none)
  else if level = "error" then (ErrorPrio, none)
  else if level = "fatal" then (FatalPrio, none)
  else if level = "panic" then (PanicPrio, none)
  else if level = "no priority" then (NoPrio, none)
  else (NoPrio, some "invalid priority")

/-! ## Message termination (`src/slog.go` 187-207)

`Log.formatMessage` is called by the default text formatter with the
configured `aurora` colouring; the default logger is built with colouring
disabled (`aurora.NewAurora(false)`), in which case `Coloring` returns the
message unchanged, so the colour argument is dropped here.  Messages are
byte sequences, modelled as `List Char` of their ASCII bytes. -/

/-- `Log.formatMessage` (`src/slog.go` 187-196), colouring disabled. -/
def Log.formatMessage (msg : List Char) : List Char :=
  if msg.length = 0 then []
  else if msg.getLast? ≠ some '\n' then msg ++ ['\n']
  else msg

/-- `Log.FormatMessage` (`src/slog.go` 199-207).  In Go it also stores the
newline-terminated text back into `l.msg`; only the returned value is
modelled. -/
def Log.FormatMessage (msg : List Char) : List Char :=
  if msg.length = 0 then []
  else if msg.getLast? ≠ some '\n' then msg ++ ['\n']
  else msg

/-- A byte sequence that ends in exactly one newline: its last byte is
`'\n'` and the byte before that (when present) is not. -/
def endsInExactlyOneNewline (l : List Char) : Prop :=
  l.getLast? = some '\n' ∧ l.dropLast.getLast? ≠ some '\n'

instance (l : List Char) : Decidable (endsInExactlyOneNewline l) := by
  unfold endsInExactlyOneNewline; infer_instance

/-! ## Time formatting (`src/slog.go` 321-352, `src/unnamed/part_000` 189-206)

`time.Time` is modelled by the calendar fields the formatters read. -/

structure DateTime where
  year : Nat
  month : Nat
  day : Nat
  hour : Nat
  minute : Nat
  sec : Nat
  nano : Nat
deriving DecidableEq

/-- The zero `time.Time` of a freshly allocated `Log`. -/
def dfltDateTime : DateTime := ⟨1, 1, 1, 0, 0, 0, 0⟩

/-- The digit loop of `Itoa`, with structural fuel.  Every iteration of the
Go loop strictly decreases `i + wid.toNat` (either `i ≥ 10` and `i` drops
to `i / 10`, or `wid > 1` and `wid` drops by one), so with fuel
`i + wid.toNat` the zero-fuel case is reached only with `i = 0` and
`wid ≤ 1`, where it coincides with the loop's exit branch. -/
def ItoaGo (fuel : Nat) (i : Nat) (wid : Int) : List Char :=
  match fuel with
  | 0 => [Char.ofNat (48 + i)]
  | fuel + 1 =>
      if 10 ≤ i ∨ 1 < wid then
        ItoaGo fuel (i / 10) (wid - 1) ++ [Char.ofNat (48 + i % 10)]
      else [Char.ofNat (48 + i)]

/-- `Itoa` (`src/slog.go` 321-334): decimal digits of `i`, left-padded with
zeros to width `wid`.  The Go loop writes the least significant digit first
at the buffer's end while `i >= 10 || wid > 1` holds, then the leading
digit. -/
def Itoa (i : Nat) (wid : Int) : List Char := ItoaGo (i + wid.toNat) i wid

/-- `FormatTime` (`src/slog.go` 337-352). -/
def FormatTime (t : DateTime) : List Char :=
  Itoa t.year 4 ++ ['/'] ++ Itoa t.month 2 ++ ['/'] ++ Itoa t.day 2 ++ [' ']
    ++ Itoa t.hour 2 ++ [':'] ++ Itoa t.minute 2 ++ [':'] ++ Itoa t.sec 2

/-! ## The tag set (`src/tags.go`) -/

/-- `tags.String` (`src/tags.go` 21-26): every tag followed by one space. -/
def tagsString : List String → String
  | [] => ""
  | s :: r => s ++ " " ++ tagsString r

/-! ## Heap-based state

`*Slog`, `*Log` and `*tags` are mutable Go pointers.  Each pointer kind gets
a heap, a total function from reference numbers to values; `next*` counters
give fresh references for allocations.  `pool` models `Slog.logPool`
(`sync.Pool`) as a LIFO free list: `Put` pushes, `Get` pops, and an empty
pool falls back to the `New` closure installed by `Init`, which reads the
configuration of the `Init` receiver (`initRef`).  The fields of `Slog` that
hold the shared, never-reassigned collaborators (`Formatter`, `Commit`,
`Writter`, `Filter`, `Exiter`, `Lck`, colouring) are identical in every
handle built by `Init` and its pool; they are modelled globally (the default
formatter/committer below, write success as a parameter), not per handle. -/

structure LogData where
  Domain : String
  Priority : Level
  Timestamp : DateTime
  Tags : Nat
  msg : String
  DoDi : Bool
  DiLevel : Nat
  file : String
deriving DecidableEq

def dfltLog : LogData :=
  { Domain := "", Priority := 0, Timestamp := dfltDateTime, Tags := 0,
    msg := "", DoDi := false, DiLevel := 0, file := "" }

structure SlogData where
  Level : Level
  Log : Nat
  Cp : Bool
deriving DecidableEq

def dfltSlog : SlogData := { Level := 0, Log := 0, Cp := false }

/-- Pointwise update of a heap. -/
def upd {α : Type} (f : Nat → α) (i : Nat) (v : α) : Nat → α :=
  fun j => if j = i then v else f j

structure St where
  tagsH : Nat → List String
  nextTags : Nat
  logH : Nat → LogData
  nextLog : Nat
  slogH : Nat → SlogData
  nextSlog : Nat
  pool : List Nat
  initRef : Nat

def St.getTags (st : St) (r : Nat) : List String := st.tagsH r

def St.setTags (st : St) (r : Nat) (v : List String) : St :=
  { st with tagsH := upd st.tagsH r v }

def St.allocTags (st : St) (v : List String) : Nat × St :=
  (st.nextTags,
   { st with tagsH := upd st.tagsH st.nextTags v, nextTags := st.nextTags + 1 })

def St.getLog (st : St) (r : Nat) : LogData := st.logH r

def St.setLog (st : St) (r : Nat) (v : LogData) : St :=
  { st with logH := upd st.logH r v }

def St.modLog (st : St) (r : Nat) (f : LogData → LogData) : St :=
  st.setLog r (f (st.getLog r))

def St.allocLog (st : St) (v : LogData) : Nat × St :=
  (st.nextLog,
   { st with logH := upd st.logH st.nextLog v, nextLog := st.nextLog + 1 })

def St.getSlog (st : St) (r : Nat) : SlogData := st.slogH r

def St.setSlog (st : St) (r : Nat) (v : SlogData) : St :=
  { st with slogH := upd st.slogH r v }

def St.modSlog (st : St) (r : Nat) (f : SlogData → SlogData) : St :=
  st.setSlog r (f (st.getSlog r))

def St.allocSlog (st : St) (v : SlogData) : Nat × St :=
  (st.nextSlog,
   { st with slogH := upd st.slogH st.nextSlog v, nextSlog := st.nextSlog + 1 })

/-! ### Tag-set operations on the heap (`src/tags.go`) -/

/-- `newTags` (`src/tags.go` 9-12): a freshly allocated, empty tag set (the
capacity argument only pre-sizes the Go slice). -/
def newTags (st : St) : Nat × St := st.allocTags []

/-- `tags.copy` (`src/tags.go` 14-19): a fresh tag set holding the same
strings. -/
def tagsCopy (st : St) (r : Nat) : Nat × St := st.allocTags (st.getTags r)

/-- `tags.Clean` (`src/tags.go` 32-36): truncate to length zero in place,
keeping the same reference. -/
def tagsClean (st : St) (r : Nat) : St := st.setTags r []

/-- `tags.Add` (`src/tags.go` 28-30). -/
def tagsAdd (st : St) (r : Nat) (ss : List String) : St :=
  st.setTags r (st.getTags r ++ ss)

/-! ### Log operations on the heap (`src/slog.go` 153-288) -/

/-- `Log.copy` (`src/slog.go` 220-236): a fresh `Log` with a deep copy of
the domain bytes and a fresh copy of the tag set.  The struct literal in the
source omits the `file` field, so the copy's `file` is the zero value `""`. -/
def logCopy (st : St) (r : Nat) : Nat × St :=
  let lg := st.getLog r
  let (t, st) := tagsCopy st lg.Tags
  st.allocLog { lg with Tags := t, file := "" }

/-- `Log.di` (`src/slog.go` 283-288). -/
def logDi (st : St) (r : Nat) (deep : Nat) : St :=
  if 0 < (st.getLog r).DiLevel then st
  else st.modLog r (fun lg => { lg with DiLevel := deep })

/-- `Log.Message` (`src/slog.go` 171-173). -/
def logMessage (st : St) (r : Nat) (s : String) : St :=
  st.modLog r (fun lg => { lg with msg := s })

/-! ### The handle pool (`src/slog.go` 462-512) -/

/-- The `logPool.New` closure installed by `Init` (`src/slog.go` 463-487):
a fresh handle whose `Log` starts at info priority with a fresh empty tag
set, reading the current domain and level of the `Init` receiver. -/
def poolNew (st : St) : Nat × St :=
  let base := st.getSlog st.initRef
  let dom := (st.getLog base.Log).Domain
  let (t, st) := newTags st
  let (lg, st) := st.allocLog
    { Domain := dom, Priority := InfoPrio, Timestamp := dfltDateTime,
      Tags := t, msg := "", DoDi := false, DiLevel := 0, file := "" }
  st.allocSlog { Level := base.Level, Log := lg, Cp := false }

/-- `logPool.Get`: pop the most recently returned handle, or run `New`. -/
def poolGet (st : St) : Nat × St :=
  match st.pool with
  | r :: rest => (r, { st with pool := rest })
  | [] => poolNew st

/-- `logPool.Put`. -/
def poolPut (st : St) (r : Nat) : St := { st with pool := r :: st.pool }

/-! ### Handle copy / dup and the chain calls (`src/slog.go` 516-619) -/

/-- `Slog.copy` (`src/slog.go` 516-528): a handle already marked `Cp` is
mutated in place; otherwise a handle is taken from the pool, given the
receiver's level and a private copy of its `Log`, and marked `Cp`. -/
def Slog.copy (st : St) (h : Nat) : Nat × St :=
  if (st.getSlog h).Cp then (h, st)
  else
    let g := poolGet st
    let out := g.1
    let st1 := (g.2).modSlog out
      (fun s => { s with Level := ((g.2).getSlog h).Level })
    let c := logCopy st1 (st1.getSlog h).Log
    (out, (c.2).modSlog out (fun s => { s with Log := c.1, Cp := true }))

/-- `Slog.dup` (`src/slog.go` 530-541): like `copy` but unconditional and
leaving `Cp` untouched. -/
def Slog.dup (st : St) (h : Nat) : Nat × St :=
  let g := poolGet st
  let out := g.1
  let st1 := (g.2).modSlog out
    (fun s => { s with Level := ((g.2).getSlog h).Level })
  let c := logCopy st1 (st1.getSlog h).Log
  (out, (c.2).modSlog out (fun s => { s with Log := c.1 }))

/-- `Slog.MakeDefault` (`src/slog.go` 551-555): dup the chain and clear the
`Cp` flag, freezing the result as a default. -/
def Slog.MakeDefault (st : St) (h : Nat) : Nat × St :=
  let (out, st) := Slog.dup st h
  (out, st.modSlog out (fun s => { s with Cp := false }))

/-- `Slog.SetLevel` (`src/slog.go` 558-562). -/
def Slog.SetLevel (st : St) (h : Nat) (level : Level) : Nat × St :=
  let (h, st) := Slog.copy st h
  (h, st.modSlog h (fun s => { s with Level := level }))

/-- Shared body of the `ProtoLevel`/`DebugLevel`/`InfoLevel`/`ErrorLevel`
chain calls (`src/slog.go` 565-590): copy, then set the record priority. -/
def Slog.setPrio (st : St) (h : Nat) (p : Level) : Nat × St :=
  let (h, st) := Slog.copy st h
  (h, st.modLog (st.getSlog h).Log (fun lg => { lg with Priority := p }))

def Slog.ProtoLevel (st : St) (h : Nat) : Nat × St := Slog.setPrio st h ProtoPrio

def Slog.DebugLevel (st : St) (h : Nat) : Nat × St := Slog.setPrio st h DebugPrio

def Slog.InfoLevel (st : St) (h : Nat) : Nat × St := Slog.setPrio st h InfoPrio

def Slog.ErrorLevel (st : St) (h : Nat) : Nat × St := Slog.setPrio st h ErrorPrio

/-- `Slog.Tag` (`src/slog.go` 593-598): copy, clean the (private) tag set in
place, then add the given tags. -/
def Slog.Tag (st : St) (h : Nat) (ss : List String) : Nat × St :=
  let (h, st) := Slog.copy st h
  let tref := (st.getLog (st.getSlog h).Log).Tags
  let st := tagsClean st tref
  let st := tagsAdd st tref ss
  (h, st)

/-- `Slog.Di` (`src/slog.go` 601-605). -/
def Slog.Di (st : St) (h : Nat) : Nat × St :=
  let (h, st) := Slog.copy st h
  (h, st.modLog (st.getSlog h).Log (fun lg => { lg with DoDi := true }))

/-- `Slog.NoDi` (`src/slog.go` 614-619). -/
def Slog.NoDi (st : St) (h : Nat) : Nat × St :=
  let (h, st) := Slog.copy st h
  (h, st.modLog (st.getSlog h).Log
    (fun lg => { lg with DoDi := false, DiLevel := 0 }))

/-! ### Commit pipeline (`src/slog.go` 354-355, 406-446, 621-641)

Observable effects of a run are collected in an event trace.  `fault` marks
a Go run-time panic raised inside the pipeline (the `Level.Byte` contract
violation); when it happens the deferred reset still runs (Go `defer` runs
during unwinding) and the caller's remaining statements do not, which the
`panicking` flag propagates. -/

inductive Ev where
  | formatted (b : List Char)
  | wrote (b : List Char)
  | writeErr
  | put (h : Nat)
  | closed
  | exited (code : Nat)
  | panicked (payload : String)
  | fault (msg : String)
deriving DecidableEq

structure Out where
  st : St
  evs : List Ev
  panicking : Bool

def sep : List Char := " - ".data

def sepTags : List Char := "- ".data

/-- The default `Formatter` installed by `Init` (`src/slog.go` 406-426),
with colouring disabled.  `none` models the panic of `Priority.Byte()` on an
invalid severity. -/
def defaultFormatter (st : St) (h : Nat) : Option (List Char) :=
  let lg := st.getLog (st.getSlog h).Log
  (Level.Byte lg.Priority).map (fun pb =>
    lg.Domain.data ++ sep ++ FormatTime lg.Timestamp ++ sep ++ pb ++ sep
      ++ (if 0 < (st.getTags lg.Tags).length
          then (tagsString (st.getTags lg.Tags)).data ++ sepTags else [])
      ++ (if lg.DoDi then lg.file.data ++ sep else [])
      ++ Log.formatMessage lg.msg.data)

/-- The state updates performed by the default `Commit` before formatting
(`src/slog.go` 429-432): stamp the timestamp and resolve the call-site
string when requested (`diFn` models `debugInfo`, which reads the run-time
call stack). -/
def stampState (st : St) (h : Nat) (now : DateTime) (diFn : Nat → String) : St :=
  let lref := (st.getSlog h).Log
  let st1 := st.modLog lref (fun lg => { lg with Timestamp := now })
  if (st1.getLog lref).DoDi
  then st1.modLog lref (fun lg => { lg with file := diFn lg.DiLevel })
  else st1

/-- The default `Commit` installed by `Init` (`src/slog.go` 427-447): stamp
and resolve (`stampState`), format, then write under the lock.  The default
formatter never returns a Go error, so the error-return branch of the
source is unreachable; a failing sink write is reported (`writeErr`) and
otherwise ignored.  `writeOk` models the sink's behaviour. -/
def defaultCommit (st : St) (h : Nat) (now : DateTime) (diFn : Nat → String)
    (writeOk : Bool) : Out :=
  match defaultFormatter (stampState st h now diFn) h with
  | none => ⟨stampState st h now diFn, [Ev.fault "this is not a priority"], true⟩
  | some buf =>
      ⟨stampState st h now diFn,
       [Ev.formatted buf, Ev.wrote buf]
         ++ (if writeOk then [] else [Ev.writeErr]), false⟩

/-- `Slog.commit` (`src/slog.go` 621-641): drop the record when its priority
is below the handle's level, otherwise apply the filter (the default filter
always accepts) and run `Commit`; in every case the deferred block resets
the record (priority to info, call-site cleared, tags replaced by a freshly
allocated empty set), clears `Cp` and returns the handle to the pool. -/
def Slog.commit (st : St) (h : Nat) (now : DateTime) (diFn : Nat → String)
    (writeOk : Bool) : Out :=
  let body : Out :=
    if (st.getLog (st.getSlog h).Log).Priority < (st.getSlog h).Level then
      ⟨st, [], false⟩
    else defaultCommit st h now diFn writeOk
  let lref := ((body.st).getSlog h).Log
  let st1 := (body.st).modLog lref
    (fun lg => { lg with Priority := InfoPrio, DoDi := false, DiLevel := 0 })
  let nt := newTags st1
  let st2 := (nt.2).modLog lref (fun lg => { lg with Tags := nt.1 })
  let st3 := st2.modSlog h (fun s => { s with Cp := false })
  ⟨poolPut st3 h, body.evs ++ [Ev.put h], body.panicking⟩

/-! ### Terminal emit calls (`src/slog.go` 645-762)

`fmt.Sprint` / `fmt.Sprintf` / `fmt.Sprintln` run before the logger sees the
text, so each terminal call takes the already-assembled message string.
`fnLevelDi = 4` is the documented stack depth of direct method calls. -/

def fnLevelDi : Nat := 4

/-- `Slog.Print` (`src/slog.go` 645-650). -/
def Slog.Print (st : St) (h : Nat) (msg : String) (now : DateTime)
    (diFn : Nat → String) (writeOk : Bool) : Out :=
  let c := Slog.copy st h
  let h1 := c.1
  let st1 := logDi c.2 ((c.2).getSlog h1).Log fnLevelDi
  let st2 := logMessage st1 (st1.getSlog h1).Log msg
  Slog.commit st2 h1 now diFn writeOk

/-- The shared prefix of the Fatal and Panic terminal calls (`src/slog.go`
696-762): copy, resolve the call depth, assemble the message, force the
given priority, commit. -/
def emitAt (st : St) (h : Nat) (p : Level) (msg : String) (now : DateTime)
    (diFn : Nat → String) (writeOk : Bool) : Out :=
  let c := Slog.copy st h
  let h1 := c.1
  let st1 := logDi c.2 ((c.2).getSlog h1).Log fnLevelDi
  let st2 := logMessage st1 (st1.getSlog h1).Log msg
  let st3 := st2.modLog (st2.getSlog h1).Log
    (fun lg => { lg with Priority := p })
  Slog.commit st3 h1 now diFn writeOk

/-- Shared body of `Slog.Fatal`, `Slog.Fatalf` and `Slog.Fatalln`
(`src/slog.go` 696-726): commit at fatal priority, close the sink, call the
exit function with code 1.  When the commit panicked internally, unwinding
skips the close and exit. -/
def fatalBody (st : St) (h : Nat) (msg : String) (now : DateTime)
    (diFn : Nat → String) (writeOk : Bool) : Out :=
  let out := emitAt st h FatalPrio msg now diFn writeOk
  if out.panicking then out
  else ⟨out.st, out.evs ++ [Ev.closed, Ev.exited 1], false⟩

/-- `Slog.Fatal` (`src/slog.go` 696-704); `msg` is `fmt.Sprint(v...)`. -/
def Slog.Fatal (st : St) (h : Nat) (msg : String) (now : DateTime)
    (diFn : Nat → String) (writeOk : Bool) : Out :=
  fatalBody st h msg now diFn writeOk

/-- `Slog.Fatalf` (`src/slog.go` 707-715); `msg` is `fmt.Sprintf(s, v...)`. -/
def Slog.Fatalf (st : St) (h : Nat) (msg : String) (now : DateTime)
    (diFn : Nat → String) (writeOk : Bool) : Out :=
  fatalBody st h msg now diFn writeOk

/-- `Slog.Fatalln` (`src/slog.go` 718-726); `msg` is `fmt.Sprintln(v...)`. -/
def Slog.Fatalln (st : St) (h : Nat) (msg : String) (now : DateTime)
    (diFn : Nat → String) (writeOk : Bool) : Out :=
  fatalBody st h msg now diFn writeOk

/-- Shared body of `Slog.Panic`, `Slog.Panicf` and `Slog.Panicln`
(`src/slog.go` 729-762): the assembled message `msg` is stored in the
record, the record is committed at panic priority, the sink is closed, and
`panic(msg)` is raised with exactly that string (both `Panic` and `Panicln`
assemble it with `fmt.Sprint`, `Panicf` with `fmt.Sprintf`). -/
def panicBody (st : St) (h : Nat) (msg : String) (now : DateTime)
    (diFn : Nat → String) (writeOk : Bool) : Out :=
  let out := emitAt st h PanicPrio msg now diFn writeOk
  if out.panicking then out
  else ⟨out.st, out.evs ++ [Ev.closed, Ev.panicked msg], true⟩

/-- `Slog.Panic` (`src/slog.go` 729-738). -/
def Slog.Panic (st : St) (h : Nat) (msg : String) (now : DateTime)
    (diFn : Nat → String) (writeOk : Bool) : Out :=
  panicBody st h msg now diFn writeOk

/-- `Slog.Panicf` (`src/slog.go` 741-750). -/
def Slog.Panicf (st : St) (h : Nat) (msg : String) (now : DateTime)
    (diFn : Nat → String) (writeOk : Bool) : Out :=
  panicBody st h msg now diFn writeOk

/-- `Slog.Panicln` (`src/slog.go` 753-762). -/
def Slog.Panicln (st : St) (h : Nat) (msg : String) (now : DateTime)
    (diFn : Nat → String) (writeOk : Bool) : Out :=
  panicBody st h msg now diFn writeOk

/-! ### `Init` and freezing a default (`src/slog.go` 375-514, 551-555) -/

def emptySt : St :=
  { tagsH := fun _ => [], nextTags := 0, logH := fun _ => dfltLog,
    nextLog := 0, slogH := fun _ => dfltSlog, nextSlog := 0,
    pool := [], initRef := 0 }

/-- The pool-filling loop of `Init` (`src/slog.go` 488-511): `nl` handles,
each built exactly like `poolNew` builds them, put into the pool. -/
def poolFill (st : St) : Nat → St
  | 0 => st
  | n + 1 =>
      let (r, st) := poolNew st
      poolFill (poolPut st r) n

/-- `Slog.Init` (`src/slog.go` 375-514) for a fresh receiver
(`&Slog\x7bLevel: level\x7d`): build the receiver's `Log` with the given
domain (`"Slog"` when empty) at info priority with an empty tag set, default
the level to info when unset, install the default formatter, committer,
filter and exiter (modelled globally), and fill the pool. -/
def Slog.Init (level : Level) (domain : String) (nl : Nat) : Nat × St :=
  let st := emptySt
  let (t, st) := newTags st
  let dom := if domain = "" then "Slog" else domain
  let (lg, st) := st.allocLog
    { Domain := dom, Priority := InfoPrio, Timestamp := dfltDateTime,
      Tags := t, msg := "", DoDi := false, DiLevel := 0, file := "" }
  let lvl := if level = 0 then InfoPrio else level
  let (h, st) := st.allocSlog { Level := lvl, Log := lg, Cp := false }
  let st := { st with initRef := h }
  (h, poolFill st nl)

/-- A handle initialised with `Init` and frozen with `MakeDefault`, as the
package does for its process-wide default (`src/slog.go` 815-825, without
the `Di()` step, so call-site resolution stays off). -/
def frozenDefault (domain : String) (nl : Nat) : Nat × St :=
  let (h, st) := Slog.Init DebugPrio domain nl
  Slog.MakeDefault st h

/-- The non-terminal configuration chain calls named by the spec. -/
inductive ChainOp where
  | tag (ss : List String)
  | setLevel (level : Level)
  | protoLevel
  | debugLevel
  | infoLevel
  | errorLevel
  | di
  | noDi

def applyChain (st : St) (h : Nat) : ChainOp → Nat × St
  | ChainOp.tag ss => Slog.Tag st h ss
  | ChainOp.setLevel level => Slog.SetLevel st h level
  | ChainOp.protoLevel => Slog.ProtoLevel st h
  | ChainOp.debugLevel => Slog.DebugLevel st h
  | ChainOp.infoLevel => Slog.InfoLevel st h
  | ChainOp.errorLevel => Slog.ErrorLevel st h
  | ChainOp.di => Slog.Di st h
  | ChainOp.noDi => Slog.NoDi st h

/-! ## The JSON formatter (`src/unnamed/part_000` 189-240, `src/unnamed/part_001` 63-79) -/

/-- `formatJSONTime` (`src/unnamed/part_000` 189-206). -/
def formatJSONTime (t : DateTime) : List Char :=
  Itoa t.year 4 ++ ['-'] ++ Itoa t.month 2 ++ ['-'] ++ Itoa t.day 2 ++ ['T']
    ++ Itoa t.hour 2 ++ [':'] ++ Itoa t.minute 2 ++ [':'] ++ Itoa t.sec 2
    ++ ['.'] ++ Itoa t.nano 9

/-- The `domain` template fragment (`src/unnamed/part_000` 208). -/
def domain : List Char := "\x7b\"Domain\":\"".data

/-- The `prio` template fragment. -/
def prio : List Char := "\",\"Priority\":\"".data

/-- The `ts` template fragment. -/
def ts : List Char := "\",\"Timestamp\":\"".data

/-- The `tgs` template fragment. -/
def tgs : List Char := "\",\"Tags\":".data

/-- The `msg` template fragment. -/
def msg : List Char := ",\"Message\":\"".data

/-- The `file` template fragment. -/
def file : List Char := "\",\"File\":\"".data

/-- The `closeing` template fragment (`src/unnamed/part_000` 214). -/
def closeing : List Char := "\"\x7d\n".data

/-- The item loop of `tags.EncodeJSON` (`src/unnamed/part_001` 68-77): each
tag quoted, a comma after every tag but the last. -/
def encodeJSONItems : List String → List Char
  | [] => []
  | [s] => '"' :: (s.data ++ ['"'])
  | s :: r => '"' :: (s.data ++ ['"', ','] ++ encodeJSONItems r)

/-- `tags.EncodeJSON` (`src/unnamed/part_001` 63-79) for a non-nil tag set
(a record's tag set is always non-nil; the nil-receiver branch of the
source also emits `[]`). -/
def EncodeJSON (t : List String) : List Char :=
  '[' :: (encodeJSONItems t ++ [']'])

/-- The message munging of the JSON formatter (`src/unnamed/part_000`
218-219): newline-terminate with `FormatMessage`, then replace every
newline by a space. -/
def jsonMessageRaw (message : List Char) : List Char :=
  (Log.FormatMessage message).map (fun c => if c = '\n' then ' ' else c)

/-- The message munging of the JSON formatter (`src/unnamed/part_000`
218-221): after the replacement, drop a single trailing space. -/
def jsonMessage (message : List Char) : List Char :=
  if (jsonMessageRaw message).getLast? = some ' '
  then (jsonMessageRaw message).dropLast
  else jsonMessageRaw message

/-- `JSON` (`src/unnamed/part_000` 216-240), as a function of the record
fields it reads (`Domain`, `Priority`, `Timestamp`, `zoneBuf`, `Tags`,
message, `DoDi`, `file`).  `none` models the panic of `Priority.Byte()` on
an invalid severity. -/
def JSON (dom : List Char) (p : Level) (t : DateTime) (zoneBuf : List Char)
    (tagList : List String) (message : List Char) (doDi : Bool)
    (fileStr : List Char) : Option (List Char) :=
  (Level.Byte p).map (fun pb =>
    domain ++ dom ++ prio ++ pb ++ ts ++ formatJSONTime t ++ zoneBuf
      ++ tgs ++ EncodeJSON tagList ++ msg ++ jsonMessage message
      ++ file ++ (if doDi then fileStr else []) ++ closeing)

/-- The JSON record without the closing `"\x7d\n`: the template fragments
interleaved with the record's domain, priority token, timestamp with zone,
tag array (in insertion order), munged message and optional call-site
string. -/
def jsonBody (dom pb : List Char) (t : DateTime) (zoneBuf : List Char)
    (tagList : List String) (message : List Char) (doDi : Bool)
    (fileStr : List Char) : List Char :=
  domain ++ dom ++ prio ++ pb ++ ts ++ formatJSONTime t ++ zoneBuf
    ++ tgs ++ EncodeJSON tagList ++ msg ++ jsonMessage message
    ++ file ++ (if doDi then fileStr else [])

/-! ## The `io.Writer` adapter (`src/slog.go` 786-803)

`Slog.Write` appends `p` to the internal buffer `l.wbuf` and then executes
`for i, c := range l.wbuf`.  Go evaluates the range expression once, so the
loop iterates over a snapshot of the appended buffer while the body
reassigns `l.wbuf`; `tolog := l.wbuf[:i]` and the later reslices read the
reassigned buffer at the snapshot's indices.  When such an index exceeds
the reassigned buffer's length the Go expression reads bytes beyond the
logical buffer (stale capacity contents) or panics, depending on the
slice's runtime capacity; that outcome is not determined by the modelled
state and is returned as `none`. -/

def writeLoop : List Char → Nat → List Char → List (List Char) →
    Option (List (List Char) × List Char)
  | [], _, wbuf, acc => some (acc.reverse, wbuf)
  | c :: rest, i, wbuf, acc =>
      if c ≠ '\n' then writeLoop rest (i + 1) wbuf acc
      else if i ≤ wbuf.length then
        let tolog := wbuf.take i
        let wbuf1 := if i + 1 < wbuf.length then wbuf.drop (i + 1) else []
        writeLoop rest (i + 1) wbuf1 (tolog :: acc)
      else none

/-- `Slog.Write` (`src/slog.go` 786-803): the returned triple is the `n`
result (always `len(p)`, the error result is always nil), the texts passed
to `l.Print`, and the retained buffer. -/
def Slog.Write (p : List Char) (wbuf : List Char) :
    Option (Nat × List (List Char) × List Char) :=
  (writeLoop (wbuf ++ p) 0 (wbuf ++ p) []).map (fun r => (p.length, r.1, r.2))

/-! ## Event predicates and concrete scenario states -/

def isExit : Ev → Bool
  | Ev.exited _ => true
  | _ => false

def isPanicked : Ev → Bool
  | Ev.panicked _ => true
  | _ => false

/-- A one-handle state for exercising `commit` below the minimum level:
the handle's level is `error` while its record's priority is `info`. -/
def c1St : St :=
  { emptySt with
      slogH := upd emptySt.slogH 0 { Level := ErrorPrio, Log := 0, Cp := true },
      logH := upd emptySt.logH 0 { dfltLog with Domain := "d", Priority := InfoPrio } }

/-- The frozen default of the two-chain scenario. -/
def c2d : Nat := (frozenDefault "teste" 2).1

def c2st : St := (frozenDefault "teste" 2).2

def c2LogRef : Nat := (c2st.getSlog c2d).Log

def c2TagsRef : Nat := (c2st.getLog c2LogRef).Tags

/-- A fixed commit instant for the recycling scenario. -/
def c4now : DateTime := ⟨2016, 3, 24, 21, 26, 37, 0⟩

def c4init : Nat × St := frozenDefault "teste" 1

/-- The chain `default.Tag("a")`. -/
def c4chain : Nat × St := Slog.Tag c4init.2 c4init.1 ["a"]

/-- The tag-set reference of the chain's record before its commit. -/
def c4T1 : Nat := ((c4chain.2).getLog ((c4chain.2).getSlog c4chain.1).Log).Tags

/-- First emit: `default.Tag("a").Print("m")`. -/
def c4emit1 : Out := Slog.Print c4chain.2 c4chain.1 "m" c4now (fun _ => "") true

/-- The tag-set reference of the recycled handle's record after the first
commit. -/
def c4T2 : Nat := ((c4emit1.st).getLog ((c4emit1.st).getSlog c4chain.1).Log).Tags

/-- Second emit, no tags configured: `default.Print("m")`. -/
def c4emit2 : Out := Slog.Print c4emit1.st c4init.1 "m" c4now (fun _ => "") true

/-- A timestamp and zone suffix for the JSON scenarios. -/
def c9t : DateTime := ⟨2016, 3, 24, 21, 26, 37, 556839791⟩

def c9zone : List Char := "+00:00".data

/-- Observer: the tag strings of the record of handle `h` in state `st`. -/
def chainTags (st : St) (h : Nat) : List String :=
  st.getTags ((st.getLog (st.getSlog h).Log).Tags)

/-- Chain A of the two-chain scenario: `default.Tag(A...)`. -/
def c2chainA (A : List String) : Nat × St := Slog.Tag c2st c2d A

/-- Chain B, started from the same frozen default after chain A:
`default.Tag(B...)`. -/
def c2chainB (A B : List String) : Nat × St :=
  Slog.Tag (c2chainA A).2 c2d B

/-- The text line the second emit of the recycling scenario writes. -/
def c4line2 : List Char := "teste - 2016/03/24 21:26:37 - info - m\n".data

/-! # Helper lemmas -/

@[simp] theorem upd_same {α : Type} (f : Nat → α) (i : Nat) (v : α) :
    upd f i v i = v := by
  simp [upd]

theorem upd_ne {α : Type} (f : Nat → α) (i : Nat) (v : α) (j : Nat)
    (h : j ≠ i) : upd f i v j = f j := by
  simp [upd, h]

@[simp] theorem getSlog_setLog (st : St) (r : Nat) (v : LogData) (x : Nat) :
    (st.setLog r v).getSlog x = st.getSlog x := rfl

@[simp] theorem getSlog_setTags (st : St) (r : Nat) (v : List String) (x : Nat) :
    (st.setTags r v).getSlog x = st.getSlog x := rfl

@[simp] theorem getLog_setTags (st : St) (r : Nat) (v : List String) (x : Nat) :
    (st.setTags r v).getLog x = st.getLog x := rfl

@[simp] theorem getLog_setSlog (st : St) (r : Nat) (v : SlogData) (x : Nat) :
    (st.setSlog r v).getLog x = st.getLog x := rfl

@[simp] theorem getTags_setLog (st : St) (r : Nat) (v : LogData) (x : Nat) :
    (st.setLog r v).getTags x = st.getTags x := rfl

@[simp] theorem getTags_setSlog (st : St) (r : Nat) (v : SlogData) (x : Nat) :
    (st.setSlog r v).getTags x = st.getTags x := rfl

@[simp] theorem getLog_setLog_same (st : St) (r : Nat) (v : LogData) :
    (st.setLog r v).getLog r = v := by
  simp [St.setLog, St.getLog]

@[simp] theorem getSlog_setSlog_same (st : St) (r : Nat) (v : SlogData) :
    (st.setSlog r v).getSlog r = v := by
  simp [St.setSlog, St.getSlog]

@[simp] theorem getTags_setTags_same (st : St) (r : Nat) (v : List String) :
    (st.setTags r v).getTags r = v := by
  simp [St.setTags, St.getTags]

@[simp] theorem getSlog_modLog (st : St) (r : Nat) (f : LogData → LogData)
    (x : Nat) : (st.modLog r f).getSlog x = st.getSlog x := rfl

@[simp] theorem getLog_modSlog (st : St) (r : Nat) (f : SlogData → SlogData)
    (x : Nat) : (st.modSlog r f).getLog x = st.getLog x := rfl

@[simp] theorem getTags_modLog (st : St) (r : Nat) (f : LogData → LogData)
    (x : Nat) : (st.modLog r f).getTags x = st.getTags x := rfl

@[simp] theorem getTags_modSlog (st : St) (r : Nat) (f : SlogData → SlogData)
    (x : Nat) : (st.modSlog r f).getTags x = st.getTags x := rfl

@[simp] theorem getLog_modLog_same (st : St) (r : Nat) (f : LogData → LogData) :
    (st.modLog r f).getLog r = f (st.getLog r) := by
  simp [St.modLog]

@[simp] theorem getSlog_modSlog_same (st : St) (r : Nat)
    (f : SlogData → SlogData) :
    (st.modSlog r f).getSlog r = f (st.getSlog r) := by
  simp [St.modSlog]

/-! # Claim C3 -/

/-- C3: for each of the seven severity levels, parsing the level's display
string yields the level back with no error: `ParseLevel(level.String())`
returns `(level, nil)` for `ProtoPrio`, `DebugPrio`, `InfoPrio`,
`ErrorPrio`, `FatalPrio`, `PanicPrio` and `NoPrio`. -/
theorem parse_of_display_string_roundtrips :
    (Level.String ProtoPrio).map ParseLevel = some (ProtoPrio, none) ∧
    (Level.String DebugPrio).map ParseLevel = some (DebugPrio, none) ∧
    (Level.String InfoPrio).map ParseLevel = some (InfoPrio, none) ∧
    (Level.String ErrorPrio).map ParseLevel = some (ErrorPrio, none) ∧
    (Level.String FatalPrio).map ParseLevel = some (FatalPrio, none) ∧
    (Level.String PanicPrio).map ParseLevel = some (PanicPrio, none) ∧
    (Level.String NoPrio).map ParseLevel = some (NoPrio, none) := by
  decide

/-! # Claim C8 -/

/-- C8: for every `Level` value outside the seven declared enum values
(`1` to `7`), both the display-string conversion `Level.String` and the
wire-token conversion `Level.Byte` reach the panic branch (modelled by
`none`); for all seven declared values both return normally. -/
theorem level_conversions_total_iff_declared :
    ∀ l : Level, (Level.String l = none ↔ (l = 0 ∨ 8 ≤ l)) ∧
      (Level.Byte l = none ↔ (l = 0 ∨ 8 ≤ l)) := by
  intro l
  match l with
  | 0 => decide
  | 1 => decide
  | 2 => decide
  | 3 => decide
  | 4 => decide
  | 5 => decide
  | 6 => decide
  | 7 => decide
  | (n + 8) =>
      exact ⟨⟨fun _ => Or.inr (Nat.le_add_left 8 n), fun _ => rfl⟩,
             ⟨fun _ => Or.inr (Nat.le_add_left 8 n), fun _ => rfl⟩⟩

/-- Witness for C8 at the concrete invalid value `9` and valid value `3`. -/
theorem level_conversions_total_iff_declared_witness :
    (Level.String 9 = none ↔ (9 = 0 ∨ 8 ≤ 9)) ∧
    (Level.Byte 3 = none ↔ (3 = 0 ∨ 8 ≤ 3)) :=
  ⟨(level_conversions_total_iff_declared 9).1,
   (level_conversions_total_iff_declared 3).2⟩

/-! # Claim C5 -/

/-- C5 counterexample: the claim says the byte sequence handed to a
Formatter ends in exactly one newline for every message, including the
empty message and messages already ending in several newlines; but
`formatMessage` maps the empty message to the empty sequence (which ends in
no newline) and passes `"a\n\n"` through with its two trailing newlines. -/
theorem formatMessage_not_always_exactly_one_newline :
    Log.formatMessage [] = [] ∧
    ¬ endsInExactlyOneNewline (Log.formatMessage []) ∧
    Log.formatMessage ['a', '\n', '\n'] = ['a', '\n', '\n'] ∧
    ¬ endsInExactlyOneNewline (Log.formatMessage ['a', '\n', '\n']) := by
  decide

/-- C5 as amended: a nonempty message that does not already end in a
newline is handed to the Formatter with exactly one `'\n'` appended; a
message already ending in one or more newlines is passed through
unchanged; the empty message produces empty output.  `FormatMessage`
behaves identically. -/
theorem formatMessage_newline_termination :
    ∀ m : List Char,
      Log.FormatMessage m = Log.formatMessage m ∧
      (m = [] → Log.formatMessage m = []) ∧
      (m.getLast? = some '\n' → Log.formatMessage m = m) ∧
      (m ≠ [] → m.getLast? ≠ some '\n' →
        Log.formatMessage m = m ++ ['\n'] ∧
        endsInExactlyOneNewline (Log.formatMessage m)) := by
  intro m
  refine ⟨rfl, ?_, ?_, ?_⟩
  · intro hm
    subst hm
    rfl
  · intro hlast
    have hne : m ≠ [] := by
      intro hm
      subst hm
      simp at hlast
    unfold Log.formatMessage
    rw [if_neg (by simp [List.length_eq_zero, hne]), if_neg (by simp [hlast])]
  · intro hne hlast
    have heq : Log.formatMessage m = m ++ ['\n'] := by
      unfold Log.formatMessage
      rw [if_neg (by simp [List.length_eq_zero, hne]), if_pos hlast]
    refine ⟨heq, ?_⟩
    rw [heq]
    constructor
    · simp
    · rw [List.dropLast_concat]
      exact hlast

/-- Witness for C5 at the concrete messages `"a"`, `"b\n"` and `""`. -/
theorem formatMessage_newline_termination_witness :
    Log.formatMessage ['a'] = ['a', '\n'] ∧
    endsInExactlyOneNewline (Log.formatMessage ['a']) ∧
    Log.formatMessage ['b', '\n'] = ['b', '\n'] ∧
    Log.formatMessage [] = [] :=
  ⟨((formatMessage_newline_termination ['a']).2.2.2 (by decide) (by decide)).1,
   ((formatMessage_newline_termination ['a']).2.2.2 (by decide) (by decide)).2,
   (formatMessage_newline_termination ['b', '\n']).2.2.1 (by decide),
   (formatMessage_newline_termination []).2.1 rfl⟩

/-! # Claim C1 -/

/-- C1: a terminal emit whose record severity is strictly below the
handle's minimum level performs no sink write and no Formatter call: the
commit step's only observable effect is returning the handle to the pool
(and no internal panic occurs). -/
theorem commit_below_level_produces_no_output
    (st : St) (h : Nat) (now : DateTime) (diFn : Nat → String)
    (writeOk : Bool)
    (hlt : (st.getLog (st.getSlog h).Log).Priority < (st.getSlog h).Level) :
    (Slog.commit st h now diFn writeOk).evs = [Ev.put h] ∧
    (Slog.commit st h now diFn writeOk).panicking = false := by
  simp [Slog.commit, hlt]

/-- Witness for C1: the handle of `c1St` has level `error` and record
priority `info`. -/
theorem commit_below_level_produces_no_output_witness :
    ((c1St.getLog (c1St.getSlog 0).Log).Priority < (c1St.getSlog 0).Level) ∧
    (Slog.commit c1St 0 dfltDateTime (fun _ => "") true).evs = [Ev.put 0] :=
  ⟨by decide,
   (commit_below_level_produces_no_output c1St 0 dfltDateTime (fun _ => "")
      true (by decide)).1⟩

/-! # Commit trace lemmas for the Fatal and Panic families -/

theorem stampState_getSlog (st : St) (h : Nat) (now : DateTime)
    (diFn : Nat → String) (x : Nat) :
    (stampState st h now diFn).getSlog x = st.getSlog x := by
  simp only [stampState]
  split <;> simp

theorem stampState_priority (st : St) (h : Nat) (now : DateTime)
    (diFn : Nat → String) :
    ((stampState st h now diFn).getLog
        ((stampState st h now diFn).getSlog h).Log).Priority
      = (st.getLog (st.getSlog h).Log).Priority := by
  rw [stampState_getSlog]
  simp only [stampState]
  split <;> simp

theorem defaultCommit_spec (st : St) (h : Nat) (now : DateTime)
    (diFn : Nat → String) (writeOk : Bool) (pb : List Char)
    (hp : Level.Byte (st.getLog (st.getSlog h).Log).Priority = some pb) :
    (defaultCommit st h now diFn writeOk).panicking = false ∧
    (defaultCommit st h now diFn writeOk).evs.countP isExit = 0 ∧
    (defaultCommit st h now diFn writeOk).evs.countP isPanicked = 0 := by
  have hp2 : Level.Byte ((stampState st h now diFn).getLog
      ((stampState st h now diFn).getSlog h).Log).Priority = some pb := by
    rw [stampState_priority]
    exact hp
  have hfmt : ∃ b, defaultFormatter (stampState st h now diFn) h = some b := by
    simp only [defaultFormatter]
    rw [hp2]
    exact ⟨_, rfl⟩
  obtain ⟨b, hb⟩ := hfmt
  unfold defaultCommit
  rw [hb]
  cases writeOk <;> simp [isExit, isPanicked]

theorem commit_spec (st : St) (h : Nat) (now : DateTime)
    (diFn : Nat → String) (writeOk : Bool) (pb : List Char)
    (hp : Level.Byte (st.getLog (st.getSlog h).Log).Priority = some pb) :
    (Slog.commit st h now diFn writeOk).panicking = false ∧
    (Slog.commit st h now diFn writeOk).evs.countP isExit = 0 ∧
    (Slog.commit st h now diFn writeOk).evs.countP isPanicked = 0 := by
  by_cases hlt :
      (st.getLog (st.getSlog h).Log).Priority < (st.getSlog h).Level
  · simp [Slog.commit, hlt, isExit, isPanicked]
  · have hdc := defaultCommit_spec st h now diFn writeOk pb hp
    simp [Slog.commit, hlt, List.countP_append, hdc.1, hdc.2.1, hdc.2.2,
      isExit, isPanicked]

theorem emitAt_spec (st : St) (h : Nat) (p : Level) (pb : List Char)
    (msgStr : String) (now : DateTime) (diFn : Nat → String) (writeOk : Bool)
    (hpb : Level.Byte p = some pb) :
    (emitAt st h p msgStr now diFn writeOk).panicking = false ∧
    (emitAt st h p msgStr now diFn writeOk).evs.countP isExit = 0 ∧
    (emitAt st h p msgStr now diFn writeOk).evs.countP isPanicked = 0 := by
  unfold emitAt
  apply commit_spec
  simp
  exact hpb

/-! # Claim C6 -/

theorem fatalBody_spec (st : St) (h : Nat) (msgStr : String) (now : DateTime)
    (diFn : Nat → String) (writeOk : Bool) :
    (fatalBody st h msgStr now diFn writeOk).evs.countP isExit = 1 ∧
    (fatalBody st h msgStr now diFn writeOk).evs.getLast?
      = some (Ev.exited 1) := by
  have he := emitAt_spec st h FatalPrio "fatal".data msgStr now diFn writeOk rfl
  unfold fatalBody
  simp [he.1, he.2.1, List.countP_append, List.getLast?_append_cons, isExit]

/-- C6: every Fatal-family call (`Fatal`, `Fatalf`, `Fatalln`) calls the
exit function exactly once, as the very last observable action, after the
commit of the record (including the sink write attempt, `writeOk` covering
both a succeeding and a failing write) has completed. -/
theorem fatal_family_exits_once_after_commit
    (st : St) (h : Nat) (msgStr : String) (now : DateTime)
    (diFn : Nat → String) (writeOk : Bool) :
    ((Slog.Fatal st h msgStr now diFn writeOk).evs.countP isExit = 1 ∧
     (Slog.Fatal st h msgStr now diFn writeOk).evs.getLast?
       = some (Ev.exited 1)) ∧
    ((Slog.Fatalf st h msgStr now diFn writeOk).evs.countP isExit = 1 ∧
     (Slog.Fatalf st h msgStr now diFn writeOk).evs.getLast?
       = some (Ev.exited 1)) ∧
    ((Slog.Fatalln st h msgStr now diFn writeOk).evs.countP isExit = 1 ∧
     (Slog.Fatalln st h msgStr now diFn writeOk).evs.getLast?
       = some (Ev.exited 1)) :=
  ⟨fatalBody_spec st h msgStr now diFn writeOk,
   fatalBody_spec st h msgStr now diFn writeOk,
   fatalBody_spec st h msgStr now diFn writeOk⟩

/-! # Claim C7 -/

theorem panicBody_spec (st : St) (h : Nat) (msgStr : String) (now : DateTime)
    (diFn : Nat → String) (writeOk : Bool) :
    (panicBody st h msgStr now diFn writeOk).evs.countP isPanicked = 1 ∧
    (panicBody st h msgStr now diFn writeOk).evs.getLast?
      = some (Ev.panicked msgStr) := by
  have he := emitAt_spec st h PanicPrio "panic".data msgStr now diFn writeOk rfl
  unfold panicBody
  simp [he.1, he.2.2, List.countP_append, List.getLast?_append_cons,
    isPanicked]

/-- C7: every Panic-family call (`Panic`, `Panicf`, `Panicln`) raises,
after the commit completes, exactly one language-level fault whose payload
is exactly the assembled message string `msgStr` — the string stored in the
record — with no record metadata appended. -/
theorem panic_family_payload_is_message
    (st : St) (h : Nat) (msgStr : String) (now : DateTime)
    (diFn : Nat → String) (writeOk : Bool) :
    ((Slog.Panic st h msgStr now diFn writeOk).evs.countP isPanicked = 1 ∧
     (Slog.Panic st h msgStr now diFn writeOk).evs.getLast?
       = some (Ev.panicked msgStr)) ∧
    ((Slog.Panicf st h msgStr now diFn writeOk).evs.countP isPanicked = 1 ∧
     (Slog.Panicf st h msgStr now diFn writeOk).evs.getLast?
       = some (Ev.panicked msgStr)) ∧
    ((Slog.Panicln st h msgStr now diFn writeOk).evs.countP isPanicked = 1 ∧
     (Slog.Panicln st h msgStr now diFn writeOk).evs.getLast?
       = some (Ev.panicked msgStr)) :=
  ⟨panicBody_spec st h msgStr now diFn writeOk,
   panicBody_spec st h msgStr now diFn writeOk,
   panicBody_spec st h msgStr now diFn writeOk⟩

/-! # Claim C2 -/

/-- C2: chaining any non-terminal configuration call (`Tag`, `SetLevel`,
`ProtoLevel`/`DebugLevel`/`InfoLevel`/`ErrorLevel`, `Di`, `NoDi`) on a
frozen default handle never mutates the default: its handle cell, its
record and its tag set are untouched.  Moreover, for any two chains
`default.Tag(A...)` and `default.Tag(B...)` started from the same frozen
default, chain A's record carries exactly the tags `A`, chain B's exactly
`B`, and after both chains the default's cell, record and (empty) tag set
are unchanged. -/
theorem frozen_default_chain_calls_never_mutate_default :
    (∀ op : ChainOp,
      ((applyChain c2st c2d op).2).getSlog c2d = c2st.getSlog c2d ∧
      ((applyChain c2st c2d op).2).getLog c2LogRef = c2st.getLog c2LogRef ∧
      ((applyChain c2st c2d op).2).getTags c2TagsRef
        = c2st.getTags c2TagsRef) ∧
    (∀ A B : List String,
      chainTags (c2chainB A B).2 (c2chainA A).1 = A ∧
      chainTags (c2chainB A B).2 (c2chainB A B).1 = B ∧
      ((c2chainB A B).2).getSlog c2d = c2st.getSlog c2d ∧
      ((c2chainB A B).2).getLog c2LogRef = c2st.getLog c2LogRef ∧
      ((c2chainB A B).2).getTags c2TagsRef = []) := by
  refine ⟨fun op => ?_, fun A B => ⟨rfl, rfl, rfl, rfl, rfl⟩⟩
  cases op <;> exact ⟨rfl, rfl, rfl⟩

/-! # Claim C4 -/

/-- C4 counterexample: the claim says the tag set is cleared in place
rather than reallocated between successive uses of a recycled record; but
after `default.Tag("a").Print("m")` the recycled handle's record holds a
tag set with a *new* reference (`c4T2 ≠ c4T1`), while the previous tag set
was never cleaned — it still contains `"a"` in the heap. -/
theorem recycled_record_tagset_reallocated_not_cleaned :
    c4T2 ≠ c4T1 ∧ (c4emit1.st).getTags c4T1 = ["a"] := by
  decide

/-- C4 as amended: between two successive uses of a recycled record the
commit step *replaces* the tag set with a freshly allocated empty one
(rather than clearing it in place), and no tags leak across uses: after
emitting with tags `["a"]`, the recycled record's tag set is empty, and a
second emit with no tags configured writes a record line that does not
contain `'a'`. -/
theorem recycled_record_fresh_tags_no_leak :
    (c4emit1.st).getTags c4T2 = [] ∧
    c4emit2.evs = [Ev.formatted c4line2, Ev.wrote c4line2, Ev.put 2] ∧
    'a' ∉ c4line2 := by
  decide

/-! # Claim C9 -/

theorem itoaGo_no_newline (fuel : Nat) :
    ∀ (i : Nat) (wid : Int), i + wid.toNat ≤ fuel →
      '\n' ∉ ItoaGo fuel i wid := by
  induction fuel with
  | zero =>
      intro i wid hle
      have hi : i = 0 := by omega
      subst hi
      simp only [ItoaGo]
      intro hmem
      exact absurd (List.mem_singleton.1 hmem).symm (by decide)
  | succ fuel ih =>
      intro i wid hle
      simp only [ItoaGo]
      split
      · intro hmem
        rcases List.mem_append.1 hmem with hm | hm
        · exact ih (i / 10) (wid - 1) (by omega) hm
        · have hk : i % 10 < 10 := Nat.mod_lt _ (by decide)
          set k := i % 10 with hkdef
          have : Char.ofNat (48 + k) ≠ '\n' := by
            interval_cases k <;> decide
          exact this (List.mem_singleton.1 hm).symm
      · rename_i hcond
        have hi : i < 10 := by omega
        intro hmem
        have : Char.ofNat (48 + i) ≠ '\n' := by
          interval_cases i <;> decide
        exact this (List.mem_singleton.1 hmem).symm

theorem itoa_no_newline (i : Nat) (wid : Int) : '\n' ∉ Itoa i wid :=
  itoaGo_no_newline (i + wid.toNat) i wid (Nat.le_refl _)

theorem formatJSONTime_no_newline (t : DateTime) :
    '\n' ∉ formatJSONTime t := by
  intro hmem
  simp only [formatJSONTime, List.append_assoc, List.mem_append] at hmem
  rcases hmem with h|h|h|h|h|h|h|h|h|h|h|h|h
  exacts [itoa_no_newline _ _ h, absurd h (by decide),
    itoa_no_newline _ _ h, absurd h (by decide), itoa_no_newline _ _ h,
    absurd h (by decide), itoa_no_newline _ _ h, absurd h (by decide),
    itoa_no_newline _ _ h, absurd h (by decide), itoa_no_newline _ _ h,
    absurd h (by decide), itoa_no_newline _ _ h]

theorem levelByte_no_newline (p : Level) (pb : List Char)
    (hp : Level.Byte p = some pb) : '\n' ∉ pb := by
  match p with
  | 0 => exact Option.noConfusion hp
  | 1 => injection hp with h; subst h; decide
  | 2 => injection hp with h; subst h; decide
  | 3 => injection hp with h; subst h; decide
  | 4 => injection hp with h; subst h; decide
  | 5 => injection hp with h; subst h; decide
  | 6 => injection hp with h; subst h; decide
  | 7 => injection hp with h; subst h; decide
  | (n + 8) => exact Option.noConfusion hp

theorem encodeJSONItems_no_newline :
    ∀ (tagList : List String), (∀ s ∈ tagList, '\n' ∉ s.data) →
      '\n' ∉ encodeJSONItems tagList
  | [], _ => by simp [encodeJSONItems]
  | [s], h => by
      have hs : '\n' ∉ s.data := h s (List.mem_singleton.2 rfl)
      simp [encodeJSONItems, hs]
  | s :: t :: u, h => by
      have hs : '\n' ∉ s.data := h s (List.mem_cons_self s _)
      have ih : '\n' ∉ encodeJSONItems (t :: u) :=
        encodeJSONItems_no_newline (t :: u)
          (fun x hx => h x (List.mem_cons_of_mem s hx))
      simp [encodeJSONItems, hs, ih]

theorem encodeJSON_no_newline (tagList : List String)
    (h : ∀ s ∈ tagList, '\n' ∉ s.data) : '\n' ∉ EncodeJSON tagList := by
  intro hmem
  rcases List.mem_cons.1 hmem with hc | hc
  · exact absurd hc (by decide)
  · rcases List.mem_append.1 hc with hc2 | hc2
    · exact encodeJSONItems_no_newline tagList h hc2
    · exact absurd hc2 (by decide)

theorem jsonMessageRaw_no_newline (message : List Char) :
    '\n' ∉ jsonMessageRaw message := by
  intro hmem
  rcases List.mem_map.1 hmem with ⟨a, _, ha⟩
  by_cases hc : a = '\n' <;> simp [hc] at ha

theorem jsonMessage_no_newline (message : List Char) :
    '\n' ∉ jsonMessage message := by
  unfold jsonMessage
  split
  · exact fun hmem =>
      jsonMessageRaw_no_newline message (List.dropLast_subset _ hmem)
  · exact jsonMessageRaw_no_newline message

theorem jsonBody_no_newline (dom pb zoneBuf fileStr : List Char)
    (tagList : List String) (message : List Char) (t : DateTime)
    (doDi : Bool) (hdom : '\n' ∉ dom) (hpb : '\n' ∉ pb)
    (hzone : '\n' ∉ zoneBuf) (htags : ∀ s ∈ tagList, '\n' ∉ s.data)
    (hfile : '\n' ∉ fileStr) :
    '\n' ∉ jsonBody dom pb t zoneBuf tagList message doDi fileStr := by
  intro hmem
  simp only [jsonBody, List.append_assoc, List.mem_append] at hmem
  rcases hmem with h|h|h|h|h|h|h|h|h|h|h|h|h
  exacts [absurd h (by decide), absurd h hdom, absurd h (by decide),
    absurd h hpb, absurd h (by decide), formatJSONTime_no_newline t h,
    absurd h hzone, absurd h (by decide),
    encodeJSON_no_newline tagList htags h, absurd h (by decide),
    jsonMessage_no_newline message h, absurd h (by decide),
    by cases doDi <;> simp_all]

theorem closeing_tail (X : List Char) (hX : '\n' ∉ X) :
    (X ++ closeing).getLast? = some '\n' ∧
    '\n' ∉ (X ++ closeing).dropLast ∧
    (X ++ closeing).dropLast.getLast? = some '\x7d' := by
  have h1 : X ++ closeing = (X ++ ['"', '\x7d']) ++ ['\n'] := by
    rw [List.append_assoc]
    rfl
  rw [h1]
  refine ⟨List.getLast?_concat _, ?_, ?_⟩
  · rw [List.dropLast_concat]
    intro hmem
    rcases List.mem_append.1 hmem with hm | hm
    · exact hX hm
    · exact absurd hm (by decide)
  · rw [List.dropLast_concat, List.getLast?_append_cons]
    rfl

/-- C9 counterexample: the claim says the JSON formatter produces a
single-line object for every record; but a record with the tag `"x\ny"`
(nothing escapes or strips newlines from tags) yields an output with a
newline strictly before the final one, i.e. spanning two lines. -/
theorem json_not_single_line_for_newline_tag :
    '\n' ∈ ((JSON "teste".data InfoPrio c9t c9zone ["x\ny"] "hello".data
        false []).getD []).dropLast ∧
    ((JSON "teste".data InfoPrio c9t c9zone ["x\ny"] "hello".data
        false []).getD []).getLast? = some '\n' := by
  decide

/-- C9 as amended: for every record whose domain, zone suffix, tags and
call-site string contain no newline byte (the message's newlines are
replaced by spaces by the formatter itself), `JSON` produces the
single-line object `\x7b"Domain":…,"Priority":…,"Timestamp":…,"Tags":…,
"Message":…,"File":…\x7d` — `jsonBody` lists the exact key fragments and
field order, with `Tags` the `EncodeJSON` array of the record's tags in
insertion order — whose only newline is the final byte, placed immediately
after the closing brace; and the tag array of a record with no tags is the
empty array `[]`, never null. -/
theorem json_layout_and_single_line (dom zoneBuf fileStr : List Char)
    (tagList : List String) (message : List Char) (t : DateTime)
    (p : Level) (pb : List Char) (doDi : Bool)
    (hpb : Level.Byte p = some pb) (hdom : '\n' ∉ dom)
    (hzone : '\n' ∉ zoneBuf) (htags : ∀ s ∈ tagList, '\n' ∉ s.data)
    (hfile : '\n' ∉ fileStr) :
    JSON dom p t zoneBuf tagList message doDi fileStr
      = some (jsonBody dom pb t zoneBuf tagList message doDi fileStr
                ++ closeing) ∧
    (jsonBody dom pb t zoneBuf tagList message doDi fileStr
        ++ closeing).getLast? = some '\n' ∧
    '\n' ∉ (jsonBody dom pb t zoneBuf tagList message doDi fileStr
        ++ closeing).dropLast ∧
    (jsonBody dom pb t zoneBuf tagList message doDi fileStr
        ++ closeing).dropLast.getLast? = some '\x7d' ∧
    EncodeJSON [] = "[]".data := by
  have hbody := jsonBody_no_newline dom pb zoneBuf fileStr tagList message t
    doDi hdom (levelByte_no_newline p pb hpb) hzone htags hfile
  have htail := closeing_tail _ hbody
  refine ⟨?_, htail.1, htail.2.1, htail.2.2, by decide⟩
  simp [JSON, jsonBody, hpb, List.append_assoc]

/-- Witness for C9 at the test record: domain `teste`, priority info, tags
`tag1`, `tag2`, message `hello`, no call-site info. -/
theorem json_layout_and_single_line_witness :
    JSON "teste".data InfoPrio c9t c9zone ["tag1", "tag2"] "hello".data
        false []
      = some (jsonBody "teste".data "info".data c9t c9zone ["tag1", "tag2"]
                "hello".data false [] ++ closeing) ∧
    (jsonBody "teste".data "info".data c9t c9zone ["tag1", "tag2"]
        "hello".data false [] ++ closeing).getLast? = some '\n' :=
  ⟨(json_layout_and_single_line "teste".data c9zone [] ["tag1", "tag2"]
      "hello".data c9t InfoPrio "info".data false rfl (by decide)
      (by decide) (by decide) (by decide)).1,
   (json_layout_and_single_line "teste".data c9zone [] ["tag1", "tag2"]
      "hello".data c9t InfoPrio "info".data false rfl (by decide)
      (by decide) (by decide) (by decide)).2.1⟩

/-! # Claim C10 -/

/-- C10: evaluation of the `io.Writer` adapter.  With a single newline per
call the adapter behaves as the claim states (`"ab\ncd"` returns count 5
with nil error, emits `"ab"`, retains `"cd"`); but at the failing input
`"\n\n"` on an empty buffer the claim's reading — one `Print` per newline
with the bytes preceding it, here two empty records — does not hold: the
range loop iterates over the pre-reassignment snapshot, so the second
record emitted is the leftover `"\n"` itself, not the empty byte sequence
preceding the second newline. -/
theorem write_adapter_eval_at_double_newline :
    Slog.Write "ab\ncd".data [] = some (5, ["ab".data], "cd".data) ∧
    Slog.Write ['\n', '\n'] [] = some (2, [[], ['\n']], []) ∧
    (([[], ['\n']] : List (List Char)) ≠ [[], []]) := by
  decide

end SlogModel
